import Mathlib

/-
Verification of the audio forensics workstation UI layer
(src/frontend/src/App.svelte) and of the analysis engine contract it
consumes.

The UI layer is shallowly embedded from the Svelte source: its numeric
state (frequencies, selection times, curve samples) is modelled over ℚ,
its command invocations as an inductive `Command` type, and its
event-handler updates as pure state-transition functions.  The analysis
engine itself (the `load_audio` / `compute_spectrogram` / `export_audio`
command handlers) is not part of the frontend sources; where a property
concerns engine behaviour, the engine operation is modelled from the
specification and the definition says so in its doc comment.
-/

/-- UI record type for the `load_audio` result (App.svelte lines 11-15). -/
structure AudioInfo where
  duration : ℚ
  sample_rate : ℕ
  channels : ℕ
deriving DecidableEq

/-- UI record type for the `compute_spectrogram` result (App.svelte lines 17-21). -/
structure SpectrogramData where
  data : List (List ℚ)
  times : List ℚ
  max_freq : ℚ
deriving DecidableEq

/-- UI record type for the `analyze_forensics` result (App.svelte lines 23-32). -/
structure ForensicData where
  enf_present : Bool
  enf_strength_db : ℚ
  grid_freq : ℕ
  splice_times : List ℚ
  snr_db : ℚ
  dynamic_range_db : ℚ
  has_clipping : Bool
  clipped_count : ℕ
deriving DecidableEq

/-- UI record type for the `get_audio_samples` result (App.svelte lines 34-38). -/
structure AudioSamples where
  samples : List ℚ
  sample_rate : ℕ
  channels : ℕ
deriving DecidableEq

/-- The de-interleaving loop of `createAudioBuffer` (App.svelte lines 639-649):
`numSamples = floor(data.length / channels)` frames per channel, and channel
`ch` at frame `i` reads `data[i * channels + ch]`.  Out-of-range reads (which
the bounds proof below shows never happen) default to `0`. -/
def createAudioBuffer (s : AudioSamples) : List (List ℚ) :=
  let numSamples := s.samples.length / s.channels
  (List.range s.channels).map fun ch =>
    (List.range numSamples).map fun i => s.samples.getD (i * s.channels + ch) 0

/-- A file-dialog filter, as passed to the `open` dialog call. -/
structure DialogFilter where
  name : String
  extensions : List String
deriving DecidableEq

/-- The single dialog filter passed by `loadAudio` (App.svelte line 422). -/
def loadAudioDialogFilters : List DialogFilter :=
  [⟨"Audio", ["wav", "mp3", "flac", "ogg", "m4a"]⟩]

/-- A command invocation sent from the UI to the engine. -/
inductive Command where
  | load_audio (path : String)
  | compute_spectrogram (max_freq : ℚ)
  | analyze_forensics
  | get_audio_samples
  | export_audio (output_path : String) (start_time end_time : ℚ)
deriving DecidableEq

/-- The sequence of engine commands issued by `loadAudio` (App.svelte lines
418-497) as a function of the dialog result.  A null result, or an empty
string (falsy in the `if (selected)` guard), issues nothing; otherwise the
chosen path is passed to `load_audio` unchanged — no extension check — and
the spectrogram is requested at the current `maxFreq` state value. -/
def loadAudio (maxFreq : ℚ) (selected : Option String) : List Command :=
  match selected with
  | none => []
  | some path =>
    if path = "" then []
    else
      [Command.load_audio path, Command.compute_spectrogram maxFreq,
       Command.analyze_forensics, Command.get_audio_samples]

/-- Initial value of the `maxFreq` state variable (App.svelte line 69). -/
def maxFreqInit : ℚ := 8000

/-- Outcome of the `exportAudio` handler: an error message, a cancelled save
dialog, or an `export_audio` invocation. -/
inductive ExportAction where
  | errorMsg (msg : String)
  | cancelled
  | invoke (output_path : String) (start_time end_time : ℚ)
deriving DecidableEq

/-- Error message when no track or no selection is present (App.svelte line 501). -/
def msgNoSelection : String := "Please select a time range to export (Shift+click and drag)"

/-- Error message for a sub-10 ms selection (App.svelte line 509). -/
def msgTooShort : String := "Selection too short to export"

/-- The `exportAudio` handler (App.svelte lines 499-542): guard against a
missing track or selection, order the selection endpoints, reject spans
shorter than 0.01 s, then invoke `export_audio` with the path chosen in the
save dialog (an empty path is falsy and cancels). -/
def exportAudio (audioInfo : Option AudioInfo) (selectionStart selectionEnd : Option ℚ)
    (savePath : Option String) : ExportAction :=
  match audioInfo, selectionStart, selectionEnd with
  | some _, some s, some e =>
    let startTime := min s e
    let endTime := max s e
    if endTime - startTime < 1 / 100 then ExportAction.errorMsg msgTooShort
    else
      match savePath with
      | none => ExportAction.cancelled
      | some p => if p = "" then ExportAction.cancelled
                  else ExportAction.invoke p startTime endTime
  | _, _, _ => ExportAction.errorMsg msgNoSelection

/-- Which filter line is being dragged (`draggingFilter` state). -/
inductive FilterDrag where
  | highpass
  | lowpass
deriving DecidableEq

/-- The `draggingFilter` branch of `handleCanvasMouseMove` (App.svelte lines
1077-1089).  `rawFreq` is `yToFrequency(y)`; the handler clamps it to
`[0, maxFreq]` and then updates the dragged filter frequency, keeping the
high-pass at least 100 Hz below the low-pass.  Returns the new
`(highPassFreq, lowPassFreq)` pair. -/
def dragFilterUpdate (dragging : FilterDrag) (rawFreq highPassFreq lowPassFreq maxFreq : ℚ) :
    ℚ × ℚ :=
  let newFreq := max 0 (min maxFreq rawFreq)
  match dragging with
  | FilterDrag.highpass => (max 0 (min newFreq (lowPassFreq - 100)), lowPassFreq)
  | FilterDrag.lowpass => (highPassFreq, min maxFreq (max newFreq (highPassFreq + 100)))

/-- The shaping function of `makeSaturationCurve` (App.svelte line 338):
`((1 + k)·x) / (1 + k·|x|)`. -/
def satShape (k x : ℚ) : ℚ := ((1 + k) * x) / (1 + k * |x|)

/-- `makeSaturationCurve` (App.svelte lines 330-341): 44100 entries, entry `i`
is the shaping function at `x = (i·2)/44100 − 1` with `k = amount·50`. -/
def makeSaturationCurve (amount : ℚ) : List ℚ :=
  let k := amount * 50
  (List.range 44100).map fun (i : ℕ) => satShape k (((i : ℚ) * 2) / 44100 - 1)

/-- One decoded track held by the engine's Sample Store: interleaved samples
plus metadata (spec §3). -/
structure Track where
  samples : List ℚ
  sample_rate : ℕ
  channels : ℕ
deriving DecidableEq

/-- Modelled from the spec: `duration = frame_count / sample_rate` (§4.1);
the engine decoder is not under the frontend sources. -/
def Track.duration (t : Track) : ℚ :=
  ((t.samples.length / t.channels : ℕ) : ℚ) / (t.sample_rate : ℚ)

/-- The engine error taxonomy (spec §7). -/
inductive EngineError where
  | FileNotFound
  | UnsupportedFormat
  | MalformedInput
  | InvalidParameter
  | EmptyRange
  | NoTrack
  | OutOfMemory
  | IoError
  | PermissionDenied
deriving DecidableEq

/-- Modelled from the spec: the `export_audio` engine command (§4.5, §6);
the engine exporter is not under the frontend sources.  The range is clipped
to `[0, duration]`; if after clipping `end ≤ start` the command fails with
`EmptyRange` and nothing is written.  Otherwise the frames from
`floor(start·sample_rate)` to `floor(end·sample_rate)` are converted to
16-bit PCM by `round(clamp(x, −1, +1)·32767)` and returned as the written
payload. -/
def export_audio (store : Option Track) (start_s end_s : ℚ) : Except EngineError (List ℤ) :=
  match store with
  | none => Except.error EngineError.NoTrack
  | some t =>
    let d := t.duration
    let s := max 0 (min start_s d)
    let e := max 0 (min end_s d)
    if e ≤ s then Except.error EngineError.EmptyRange
    else
      let i0 := (s * (t.sample_rate : ℚ)).floor.toNat
      let i1 := (e * (t.sample_rate : ℚ)).floor.toNat
      Except.ok (((t.samples.drop (i0 * t.channels)).take ((i1 - i0) * t.channels)).map
        fun x => round (max (-1) (min 1 x) * 32767))

/-- Spectrogram window size `N = 2048` (spec §4.3). -/
def specWindowSize : ℕ := 2048

/-- Spectrogram hop size `H = 512` (spec §4.3). -/
def specHopSize : ℕ := 512

/-- Modelled from the spec: the Sample Store's arithmetic-mean mono mix
(§4.2); the engine store is not under the frontend sources. -/
def monoMix (t : Track) : List ℚ :=
  if t.channels ≤ 1 then t.samples
  else
    (List.range (t.samples.length / t.channels)).map fun i =>
      (((List.range t.channels).map fun ch => t.samples.getD (i * t.channels + ch) 0).sum)
        / (t.channels : ℚ)

/-- Number of STFT frames over a signal of length `L`: frames `m = 0 … ⌊(L−N)/H⌋`,
none when `L < N` (spec §4.3). -/
def numFrames (L : ℕ) : ℕ :=
  if L < specWindowSize then 0 else (L - specWindowSize) / specHopSize + 1

/-- Frame `m` of the mono signal: `N` samples starting at `m·H` (spec §4.3). -/
def frameAt (signal : List ℚ) (m : ℕ) : List ℚ :=
  (signal.drop (m * specHopSize)).take specWindowSize

/-- Number of retained frequency bins: those `k ∈ [0, N/2]` with center
frequency `k·sample_rate/N ≤ f` (spec §4.3). -/
def specNumBins (sr : ℕ) (f : ℚ) : ℕ :=
  (List.range (specWindowSize / 2 + 1)).countP fun (k : ℕ) =>
    decide ((k : ℚ) * (sr : ℚ) / (specWindowSize : ℚ) ≤ f)

/-- Modelled from the spec: the dB magnitude matrix (§4.3), one row per
frame, truncated to the bins at or below the (already clamped) `fc`.
`mag frame k` abstracts the dB magnitude of bin `k` of the Hann-windowed
length-`N` DFT of `frame` (a transcendental quantity left as a parameter;
the verified properties depend only on framing, bin truncation, clamping
and the −200 dB floor, which is applied to every value before return). -/
def spectrogramRows (mag : List ℚ → ℕ → ℚ) (t : Track) (fc : ℚ) : List (List ℚ) :=
  (List.range (numFrames (monoMix t).length)).map fun m =>
    (List.range (specNumBins t.sample_rate fc)).map fun k =>
      max (mag (frameAt (monoMix t) m) k) (-200)

/-- Frame start times in seconds: `m·H/sample_rate` (spec §4.3). -/
def spectrogramTimes (t : Track) : List ℚ :=
  (List.range (numFrames (monoMix t).length)).map fun m =>
    ((m * specHopSize : ℕ) : ℚ) / (t.sample_rate : ℚ)

/-- Modelled from the spec: the `compute_spectrogram` engine command (§4.3,
§6); the engine is not under the frontend sources.  `max_freq ≤ 0` is
`InvalidParameter`; `max_freq` above Nyquist silently clamps to Nyquist
(§4.3 edge cases, §8 round-trip law). -/
def compute_spectrogram (mag : List ℚ → ℕ → ℚ) (store : Option Track) (max_freq : ℚ) :
    Except EngineError SpectrogramData :=
  match store with
  | none => Except.error EngineError.NoTrack
  | some t =>
    if max_freq ≤ 0 then Except.error EngineError.InvalidParameter
    else
      let fc := min max_freq ((t.sample_rate : ℚ) / 2)
      Except.ok
        { data := spectrogramRows mag t fc,
          times := spectrogramTimes t,
          max_freq := fc }

/-- Concrete sample record used to instantiate de-interleaving: five samples,
two channels. -/
def demoSamples : AudioSamples := ⟨[10, 20, 30, 40, 50], 44100, 2⟩

/-- Concrete track metadata used to instantiate the export handler. -/
def demoInfo : AudioInfo := ⟨10, 44100, 2⟩

/-- Concrete two-sample mono track used to instantiate the export command. -/
def demoTrack : Track := ⟨[0, 0], 1, 1⟩

/-- Concrete empty mono track used to instantiate the spectrogram command. -/
def emptyTrack : Track := ⟨[], 1, 1⟩

/-- Concrete stand-in for the abstract DFT magnitude parameter. -/
def magZero : List ℚ → ℕ → ℚ := fun _ _ => 0

/-- Concrete spectrogram result for `emptyTrack` at `max_freq = 1`. -/
def emptySpectrogram : SpectrogramData := ⟨[], [], 1 / 2⟩

/-- Concrete file names used to instantiate the dialog-driven handlers. -/
def demoPath : String := "document.pdf"

/-- Concrete audio file name used to instantiate `loadAudio`. -/
def demoWav : String := "a.wav"

/-- Concrete output file name used to instantiate `exportAudio`. -/
def demoOut : String := "o.wav"

/-- Reading index `i` of `(List.range n).map f` with the default never used. -/
theorem getD_map_range {α : Type} (f : ℕ → α) (n i : ℕ) (d : α) (h : i < n) :
    ((List.range n).map f).getD i d = f i := by
  rw [List.getD_eq_getElem?_getD, List.getElem?_map, List.getElem?_range h]
  rfl

/-- C1: the samples array returned by `get_audio_samples` is
channel-interleaved and `createAudioBuffer` de-interleaves it correctly:
for channels `c ≥ 1` (implied by `ch < c`) and a sample array of length `L`,
the playback buffer holds one channel list per channel, each with
`⌊L/c⌋` frames, and channel `ch` at frame `i` receives `samples[i·c + ch]`,
an index that is always in bounds. -/
theorem createAudioBuffer_deinterleaves (s : AudioSamples) :
    (createAudioBuffer s).length = s.channels ∧
    (∀ ch, ch < s.channels →
      ((createAudioBuffer s).getD ch []).length = s.samples.length / s.channels) ∧
    (∀ ch i, ch < s.channels → i < s.samples.length / s.channels →
      i * s.channels + ch < s.samples.length ∧
      ((createAudioBuffer s).getD ch []).getD i 0 =
        s.samples.getD (i * s.channels + ch) 0) := by
  refine ⟨by simp [createAudioBuffer], ?_, ?_⟩
  · intro ch hch
    rw [createAudioBuffer, getD_map_range _ _ _ _ hch]
    simp
  · intro ch i hch hi
    constructor
    · have h2 : (i + 1) * s.channels ≤ s.samples.length / s.channels * s.channels :=
        Nat.mul_le_mul_right s.channels hi
      have h3 : s.samples.length / s.channels * s.channels ≤ s.samples.length :=
        Nat.div_mul_le_self s.samples.length s.channels
      have h4 : i * s.channels + ch < (i + 1) * s.channels := by
        rw [Nat.succ_mul]; exact Nat.add_lt_add_left hch _
      exact lt_of_lt_of_le h4 (le_trans h2 h3)
    · rw [createAudioBuffer, getD_map_range _ _ _ _ hch, getD_map_range _ _ _ _ hi]

/-- C1 witness: on the concrete five-sample stereo record, channel 1 at
frame 1 reads interleaved index `1·2 + 1 = 3`, which is in bounds. -/
theorem createAudioBuffer_deinterleaves_witness :
    1 * demoSamples.channels + 1 < demoSamples.samples.length ∧
    ((createAudioBuffer demoSamples).getD 1 []).getD 1 0 =
      demoSamples.samples.getD (1 * demoSamples.channels + 1) 0 :=
  (createAudioBuffer_deinterleaves demoSamples).2.2 1 1 (by decide) (by decide)

/-- C2: the file-open dialog invoked by `loadAudio` passes exactly one
filter, whose extension list is exactly `[wav, mp3, flac, ogg, m4a]`, and
any chosen (truthy) path — whatever its extension — is passed straight to
the `load_audio` command as the first invocation, with no extension check. -/
theorem loadAudio_extension_gate :
    loadAudioDialogFilters.length = 1 ∧
    (loadAudioDialogFilters.headD ⟨"", []⟩).extensions = ["wav", "mp3", "flac", "ogg", "m4a"] ∧
    (∀ path maxF, path ≠ "" →
      (loadAudio maxF (some path)).head? = some (Command.load_audio path)) := by
  refine ⟨rfl, rfl, ?_⟩
  intro path maxF hp
  rw [loadAudio, if_neg hp]
  rfl

/-- C2 witness: a path whose extension is outside the allow-list is still
passed unchanged to `load_audio`. -/
theorem loadAudio_extension_gate_witness :
    demoPath ≠ "" ∧
    (loadAudio 8000 (some demoPath)).head? = some (Command.load_audio demoPath) :=
  ⟨by decide, loadAudio_extension_gate.2.2 demoPath 8000 (by decide)⟩

/-- C3: the `maxFreq` state variable is initialized to 8000, and the
`compute_spectrogram` invocation issued by `loadAudio` before the user
changes it carries exactly that value. -/
theorem maxFreq_defaults_to_8000 :
    maxFreqInit = 8000 ∧
    (∀ path, path ≠ "" →
      (loadAudio maxFreqInit (some path))[1]? = some (Command.compute_spectrogram 8000)) := by
  refine ⟨rfl, ?_⟩
  intro path hp
  rw [loadAudio, if_neg hp]
  rfl

/-- C3 witness: loading a concrete file with the initial state requests the
spectrogram at 8000 Hz. -/
theorem maxFreq_defaults_to_8000_witness :
    demoWav ≠ "" ∧
    (loadAudio maxFreqInit (some demoWav))[1]? = some (Command.compute_spectrogram 8000) :=
  ⟨by decide, maxFreq_defaults_to_8000.2 demoWav (by decide)⟩

/-- C4: the UI record types for the four query commands consist of exactly
the snake_case fields of the command table: `duration`/`sample_rate`/`channels`,
`data`/`times`/`max_freq`, `enf_present`/`enf_strength_db`/`grid_freq`/
`splice_times`/`snr_db`/`dynamic_range_db`/`has_clipping`/`clipped_count`,
and `samples`/`sample_rate`/`channels` — each record is rebuilt in full from
just these projections. -/
theorem ui_record_fields :
    (∀ a : AudioInfo,
      a = { duration := a.duration, sample_rate := a.sample_rate, channels := a.channels }) ∧
    (∀ s : SpectrogramData,
      s = { data := s.data, times := s.times, max_freq := s.max_freq }) ∧
    (∀ f : ForensicData,
      f = { enf_present := f.enf_present, enf_strength_db := f.enf_strength_db,
            grid_freq := f.grid_freq, splice_times := f.splice_times, snr_db := f.snr_db,
            dynamic_range_db := f.dynamic_range_db, has_clipping := f.has_clipping,
            clipped_count := f.clipped_count }) ∧
    (∀ x : AudioSamples,
      x = { samples := x.samples, sample_rate := x.sample_rate, channels := x.channels }) :=
  ⟨fun _ => rfl, fun _ => rfl, fun _ => rfl, fun _ => rfl⟩


/-- Every row of `spectrogramRows` has length `specNumBins`. -/
theorem spectrogramRows_length (mag : List ℚ → ℕ → ℚ) (t : Track) (fc : ℚ) :
    ∀ row ∈ spectrogramRows mag t fc, row.length = specNumBins t.sample_rate fc := by
  intro row hrow
  obtain ⟨m, _, rfl⟩ := List.mem_map.1 hrow
  simp

/-- In a matrix whose rows all have length `n`, every row has the length of
the default-headed first row. -/
theorem headD_length_of_const {α : Type} {D : List (List α)} {n : ℕ}
    (h : ∀ row ∈ D, row.length = n) :
    ∀ row ∈ D, row.length = (D.headD []).length := by
  intro row hrow
  cases D with
  | nil => exact absurd hrow (List.not_mem_nil row)
  | cons a l => rw [List.headD_cons, h row hrow, h a (List.mem_cons_self a l)]

/-- C5: `export_audio` on a range that is empty after clipping to
`[0, duration]` fails with `EmptyRange`, and in particular for every track
and every `t`, exporting with `start_s = end_s = t` returns `EmptyRange`
(and, the result being an error, no payload is written). -/
theorem export_audio_empty_range :
    (∀ (t : Track) (start_s end_s : ℚ),
      max 0 (min end_s t.duration) ≤ max 0 (min start_s t.duration) →
      export_audio (some t) start_s end_s = Except.error EngineError.EmptyRange) ∧
    (∀ (t : Track) (x : ℚ),
      export_audio (some t) x x = Except.error EngineError.EmptyRange) := by
  have h1 : ∀ (t : Track) (start_s end_s : ℚ),
      max 0 (min end_s t.duration) ≤ max 0 (min start_s t.duration) →
      export_audio (some t) start_s end_s = Except.error EngineError.EmptyRange := by
    intro t s e h
    simp only [export_audio]
    rw [if_pos h]
  exact ⟨h1, fun t x => h1 t x x le_rfl⟩

/-- C5 witness: on the concrete two-sample track, exporting the reversed
range `[1, 0]` and the degenerate range `[1, 1]` both fail with `EmptyRange`. -/
theorem export_audio_empty_range_witness :
    max 0 (min (0 : ℚ) demoTrack.duration) ≤ max 0 (min 1 demoTrack.duration) ∧
    export_audio (some demoTrack) 1 0 = Except.error EngineError.EmptyRange ∧
    export_audio (some demoTrack) 1 1 = Except.error EngineError.EmptyRange := by
  have hle : max 0 (min (0 : ℚ) demoTrack.duration) ≤ max 0 (min 1 demoTrack.duration) := by
    have hd : demoTrack.duration = 2 := by norm_num [demoTrack, Track.duration]
    rw [hd]; norm_num
  exact ⟨hle, export_audio_empty_range.1 demoTrack 1 0 hle,
    export_audio_empty_range.2 demoTrack 1⟩

/-- C6: for every loaded track with positive sample rate and every
`max_freq` at or above the Nyquist rate `sample_rate/2`, the spectrogram
command succeeds and returns exactly the result obtained at Nyquist —
`max_freq` silently clamps instead of failing.  Stated for every abstract
DFT magnitude function `mag`. -/
theorem compute_spectrogram_clamps (mag : List ℚ → ℕ → ℚ) (t : Track) (f : ℚ)
    (hsr : 0 < t.sample_rate) (hf : (t.sample_rate : ℚ) / 2 ≤ f) :
    compute_spectrogram mag (some t) f =
      compute_spectrogram mag (some t) ((t.sample_rate : ℚ) / 2) ∧
    ∃ r, compute_spectrogram mag (some t) f = Except.ok r := by
  have hny : (0 : ℚ) < (t.sample_rate : ℚ) / 2 := by
    have hc : (0 : ℚ) < (t.sample_rate : ℚ) := by exact_mod_cast hsr
    linarith
  have hf0 : ¬ f ≤ 0 := not_le.2 (lt_of_lt_of_le hny hf)
  have hny0 : ¬ (t.sample_rate : ℚ) / 2 ≤ 0 := not_le.2 hny
  have hok : compute_spectrogram mag (some t) f = Except.ok
      { data := spectrogramRows mag t (min f ((t.sample_rate : ℚ) / 2)),
        times := spectrogramTimes t,
        max_freq := min f ((t.sample_rate : ℚ) / 2) } := by
    simp only [compute_spectrogram, if_neg hf0]
  constructor
  · simp only [compute_spectrogram, if_neg hf0, if_neg hny0, min_eq_right hf, min_self]
  · exact ⟨_, hok⟩

/-- C6 witness: the empty 1 Hz track with `max_freq = 1 ≥ Nyquist = 1/2`
produces the same (successful) result as at Nyquist. -/
theorem compute_spectrogram_clamps_witness :
    0 < emptyTrack.sample_rate ∧ (emptyTrack.sample_rate : ℚ) / 2 ≤ 1 ∧
    compute_spectrogram magZero (some emptyTrack) 1 =
      compute_spectrogram magZero (some emptyTrack) ((emptyTrack.sample_rate : ℚ) / 2) :=
  ⟨by decide, by norm_num [emptyTrack],
    (compute_spectrogram_clamps magZero emptyTrack 1 (by decide)
      (by norm_num [emptyTrack])).1⟩

/-- C7: every successful spectrogram result has all rows of the length of
row 0, every entry at least −200 dB (entries of the ℚ embedding are finite
by construction), and — the fact the rendering loops of `drawSpectrogram`
and `renderSpectrogramToCache` (App.svelte lines 1145-1162, 1217-1236) rely
on — indexing any row at any bin index below row 0's length stays in
bounds.  Stated for every abstract DFT magnitude function `mag`. -/
theorem compute_spectrogram_rows (mag : List ℚ → ℕ → ℚ) (t : Track) (f : ℚ)
    (r : SpectrogramData) (h : compute_spectrogram mag (some t) f = Except.ok r) :
    (∀ row ∈ r.data, row.length = (r.data.headD []).length) ∧
    (∀ row ∈ r.data, ∀ v ∈ row, -200 ≤ v) ∧
    (∀ row ∈ r.data, ∀ y, y < (r.data.headD []).length → y < row.length) := by
  by_cases hf : f ≤ 0
  · simp only [compute_spectrogram, if_pos hf] at h
    exact absurd h (by simp)
  · simp only [compute_spectrogram, if_neg hf, Except.ok.injEq] at h
    have hdata : r.data = spectrogramRows mag t (min f ((t.sample_rate : ℚ) / 2)) := by
      rw [← h]
    have hlen : ∀ row ∈ r.data,
        row.length = specNumBins t.sample_rate (min f ((t.sample_rate : ℚ) / 2)) := by
      rw [hdata]
      exact spectrogramRows_length mag t _
    refine ⟨headD_length_of_const hlen, ?_, ?_⟩
    · intro row hrow v hv
      rw [hdata] at hrow
      obtain ⟨m, _, rfl⟩ := List.mem_map.1 hrow
      obtain ⟨k, _, rfl⟩ := List.mem_map.1 hv
      exact le_max_right _ _
    · intro row hrow y hy
      exact lt_of_lt_of_eq hy (headD_length_of_const hlen row hrow).symm

/-- C7 witness: the empty 1 Hz track yields the concrete (empty) successful
spectrogram, on which the row invariants hold. -/
theorem compute_spectrogram_rows_witness :
    compute_spectrogram magZero (some emptyTrack) 1 = Except.ok emptySpectrogram ∧
    (∀ row ∈ emptySpectrogram.data, row.length = (emptySpectrogram.data.headD []).length) :=
  have h : compute_spectrogram magZero (some emptyTrack) 1 = Except.ok emptySpectrogram := by
    norm_num [compute_spectrogram, emptyTrack, emptySpectrogram, spectrogramRows,
      spectrogramTimes, monoMix, numFrames, specWindowSize]
  ⟨h, (compute_spectrogram_rows magZero emptyTrack 1 emptySpectrogram h).1⟩

/-- The saturation denominator `1 + k·|x|` is positive for `k ≥ 0`. -/
theorem satDen_pos (k x : ℚ) (hk : 0 ≤ k) : 0 < 1 + k * |x| := by
  have hm : 0 ≤ k * |x| := mul_nonneg hk (abs_nonneg x)
  linarith

/-- The saturation shaping function is monotone for `k ≥ 0`. -/
theorem satShape_mono (k a b : ℚ) (hk : 0 ≤ k) (hab : a ≤ b) :
    satShape k a ≤ satShape k b := by
  unfold satShape
  rw [div_le_div_iff₀ (satDen_pos k a hk) (satDen_pos k b hk)]
  rcases abs_cases a with ⟨ha1, ha2⟩ | ⟨ha1, ha2⟩ <;>
    rcases abs_cases b with ⟨hb1, hb2⟩ | ⟨hb1, hb2⟩ <;> rw [ha1, hb1]
  · nlinarith
  · nlinarith
  · nlinarith [mul_nonneg hk (mul_nonneg hb2 (by linarith : (0 : ℚ) ≤ -a))]
  · nlinarith

/-- The saturation shaping function maps `[-1, 1]` into `[-1, 1]` for `k ≥ 0`. -/
theorem satShape_bounds (k x : ℚ) (hk : 0 ≤ k) (hx1 : -1 ≤ x) (hx2 : x ≤ 1) :
    -1 ≤ satShape k x ∧ satShape k x ≤ 1 := by
  unfold satShape
  constructor
  · rw [le_div_iff₀ (satDen_pos k x hk)]
    rcases abs_cases x with ⟨h1, h2⟩ | ⟨h1, h2⟩ <;> rw [h1] <;> nlinarith
  · rw [div_le_one (satDen_pos k x hk)]
    rcases abs_cases x with ⟨h1, h2⟩ | ⟨h1, h2⟩ <;> rw [h1] <;> nlinarith

/-- Reading index `i` of `(List.range n).map f` through `List.get`. -/
theorem get_map_range {α : Type} (f : ℕ → α) (n i : ℕ)
    (h : i < ((List.range n).map f).length) :
    ((List.range n).map f).get ⟨i, h⟩ = f i := by
  rw [List.get_eq_getElem, List.getElem_map, List.getElem_range]

/-- C8: `exportAudio` never issues `export_audio` with an empty or reversed
range: whenever it invokes the command, the start argument is
`min(selectionStart, selectionEnd)`, the end argument is
`max(selectionStart, selectionEnd)`, and the span is at least 0.01 s (hence
nonnegative); a null track, a null selection, or a selection shorter than
0.01 s produces an error message and no invocation. -/
theorem exportAudio_range_safe :
    (∀ (ai : Option AudioInfo) (ss se : Option ℚ) (sp : Option String) (p : String)
        (st et : ℚ), exportAudio ai ss se sp = ExportAction.invoke p st et →
      ∃ s e, ss = some s ∧ se = some e ∧ st = min s e ∧ et = max s e ∧
        1 / 100 ≤ et - st ∧ 0 ≤ et - st) ∧
    (∀ (ai : Option AudioInfo) (se : Option ℚ) (sp : Option String),
      ∃ m, exportAudio ai none se sp = ExportAction.errorMsg m) ∧
    (∀ (ai : Option AudioInfo) (ss : Option ℚ) (sp : Option String),
      ∃ m, exportAudio ai ss none sp = ExportAction.errorMsg m) ∧
    (∀ (a : AudioInfo) (s e : ℚ) (sp : Option String),
      max s e - min s e < 1 / 100 →
      ∃ m, exportAudio (some a) (some s) (some e) sp = ExportAction.errorMsg m) := by
  refine ⟨?_, ?_, ?_, ?_⟩
  · intro ai ss se sp p st et h
    rcases ai with _ | a <;> rcases ss with _ | s <;> rcases se with _ | e <;>
      simp only [exportAudio] at h
    · exact absurd h (by simp)
    · exact absurd h (by simp)
    · exact absurd h (by simp)
    · exact absurd h (by simp)
    · exact absurd h (by simp)
    · exact absurd h (by simp)
    · exact absurd h (by simp)
    · by_cases hlt : max s e - min s e < 1 / 100
      · rw [if_pos hlt] at h
        exact absurd h (by simp)
      · rw [if_neg hlt] at h
        rcases sp with _ | q
        · exact ExportAction.noConfusion
            (h : ExportAction.cancelled = ExportAction.invoke p st et)
        · have h2 : (if q = "" then ExportAction.cancelled
              else ExportAction.invoke q (min s e) (max s e)) =
              ExportAction.invoke p st et := h
          by_cases hq : q = ""
          · rw [if_pos hq] at h2
            exact absurd h2 (by simp)
          · rw [if_neg hq] at h2
            rw [ExportAction.invoke.injEq] at h2
            refine ⟨s, e, rfl, rfl, h2.2.1.symm, h2.2.2.symm, ?_, ?_⟩
            · rw [← h2.2.1, ← h2.2.2]
              exact not_lt.1 hlt
            · rw [← h2.2.1, ← h2.2.2]
              have hmm := min_le_max (a := s) (b := e)
              linarith
  · intro ai se sp
    rcases ai with _ | a <;> rcases se with _ | e <;> exact ⟨msgNoSelection, rfl⟩
  · intro ai ss sp
    rcases ai with _ | a <;> rcases ss with _ | s <;> exact ⟨msgNoSelection, rfl⟩
  · intro a s e sp h
    refine ⟨msgTooShort, ?_⟩
    simp only [exportAudio]
    rw [if_pos h]

/-- C8 witness: with a track, the selection `[0, 1]` and a chosen output
path, the handler invokes `export_audio` with the ordered range `[0, 1]`,
whose span satisfies the bounds. -/
theorem exportAudio_range_safe_witness :
    exportAudio (some demoInfo) (some (0 : ℚ)) (some 1) (some demoOut) =
      ExportAction.invoke demoOut 0 1 ∧
    (∃ s e, some (0 : ℚ) = some s ∧ some (1 : ℚ) = some e ∧ (0 : ℚ) = min s e ∧
      (1 : ℚ) = max s e ∧ (1 : ℚ) / 100 ≤ 1 - 0 ∧ (0 : ℚ) ≤ 1 - 0) :=
  have h : exportAudio (some demoInfo) (some (0 : ℚ)) (some 1) (some demoOut) =
      ExportAction.invoke demoOut 0 1 := by
    simp only [exportAudio]
    rw [if_neg (by norm_num [max_def, min_def] :
      ¬ (max (0 : ℚ) 1 - min (0 : ℚ) 1 < 1 / 100))]
    have h2 : (if demoOut = "" then ExportAction.cancelled
        else ExportAction.invoke demoOut (min (0 : ℚ) 1) (max (0 : ℚ) 1)) =
        ExportAction.invoke demoOut (min (0 : ℚ) 1) (max (0 : ℚ) 1) :=
      if_neg (by decide : ¬ (demoOut = ""))
    rw [h2]
    norm_num [min_def, max_def]
  ⟨h, exportAudio_range_safe.1 (some demoInfo) (some 0) (some 1) (some demoOut)
    demoOut 0 1 h⟩

/-- C9: the filter-drag update of `handleCanvasMouseMove` preserves the
band-separation invariant: if `0 ≤ highPassFreq ≤ lowPassFreq − 100` and
`lowPassFreq ≤ maxFreq` held before the mouse-move event, they hold after
the dragged filter frequency is updated, for either dragged filter and any
raw pointer frequency. -/
theorem dragFilterUpdate_keeps_band_separation (d : FilterDrag) (raw hp lp mf : ℚ)
    (h1 : 0 ≤ hp) (h2 : hp ≤ lp - 100) (h3 : lp ≤ mf) :
    0 ≤ (dragFilterUpdate d raw hp lp mf).1 ∧
    (dragFilterUpdate d raw hp lp mf).1 ≤ (dragFilterUpdate d raw hp lp mf).2 - 100 ∧
    (dragFilterUpdate d raw hp lp mf).2 ≤ mf := by
  cases d with
  | highpass =>
    refine ⟨le_max_left _ _, ?_, h3⟩
    show max 0 (min (max 0 (min mf raw)) (lp - 100)) ≤ lp - 100
    exact max_le (by linarith) (min_le_right _ _)
  | lowpass =>
    refine ⟨h1, ?_, min_le_left _ _⟩
    show hp ≤ min mf (max (max 0 (min mf raw)) (hp + 100)) - 100
    have hstep : hp + 100 ≤ min mf (max (max 0 (min mf raw)) (hp + 100)) :=
      le_min (by linarith) (le_max_right _ _)
    linarith

/-- C9 witness: dragging the high-pass line to a raw 500 Hz from the state
`(highPass, lowPass, max) = (0, 200, 8000)` keeps the invariant. -/
theorem dragFilterUpdate_keeps_band_separation_witness :
    (0 : ℚ) ≤ 0 ∧ (0 : ℚ) ≤ 200 - 100 ∧ (200 : ℚ) ≤ 8000 ∧
    (0 ≤ (dragFilterUpdate FilterDrag.highpass 500 0 200 8000).1 ∧
     (dragFilterUpdate FilterDrag.highpass 500 0 200 8000).1 ≤
       (dragFilterUpdate FilterDrag.highpass 500 0 200 8000).2 - 100 ∧
     (dragFilterUpdate FilterDrag.highpass 500 0 200 8000).2 ≤ 8000) :=
  ⟨le_refl 0, by norm_num, by norm_num,
    dragFilterUpdate_keeps_band_separation FilterDrag.highpass 500 0 200 8000
      (le_refl 0) (by norm_num) (by norm_num)⟩

/-- C10: for every `amount ∈ [0, 1]`, `makeSaturationCurve` returns exactly
44100 entries, each in `[-1, 1]`, nondecreasing in the index. -/
theorem makeSaturationCurve_shape (amount : ℚ) (h0 : 0 ≤ amount) (h1 : amount ≤ 1) :
    (makeSaturationCurve amount).length = 44100 ∧
    (∀ i, i < 44100 →
      -1 ≤ (makeSaturationCurve amount).getD i 0 ∧
      (makeSaturationCurve amount).getD i 0 ≤ 1) ∧
    (∀ i j, i ≤ j → j < 44100 →
      (makeSaturationCurve amount).getD i 0 ≤ (makeSaturationCurve amount).getD j 0) := by
  have hunf : makeSaturationCurve amount = (List.range 44100).map
      (fun (i : ℕ) => satShape (amount * 50) (((i : ℚ) * 2) / 44100 - 1)) := rfl
  have hlen : (makeSaturationCurve amount).length = 44100 := by
    rw [hunf, List.length_map, List.length_range]
  have hk : (0 : ℚ) ≤ amount * 50 := by linarith
  have hget : ∀ i, i < 44100 →
      (makeSaturationCurve amount).getD i 0 =
        satShape (amount * 50) (((i : ℚ) * 2) / 44100 - 1) := by
    intro i hi
    rw [hunf, getD_map_range _ _ _ _ hi]
  refine ⟨hlen, ?_, ?_⟩
  · intro i hi44
    rw [hget i hi44]
    have hc0 : (0 : ℚ) ≤ (i : ℚ) := Nat.cast_nonneg i
    have hx1 : (-1 : ℚ) ≤ ((i : ℚ) * 2) / 44100 - 1 := by
      have hq : (0 : ℚ) ≤ ((i : ℚ) * 2) / 44100 :=
        div_nonneg (mul_nonneg hc0 (by norm_num)) (by norm_num)
      linarith
    have hx2 : ((i : ℚ) * 2) / 44100 - 1 ≤ 1 := by
      have hic : (i : ℚ) ≤ 44100 := by exact_mod_cast hi44.le
      have hq : ((i : ℚ) * 2) / 44100 ≤ 2 := by
        rw [div_le_iff₀ (by norm_num : (0 : ℚ) < 44100)]
        linarith
      linarith
    exact satShape_bounds _ _ hk hx1 hx2
  · intro i j hij hj
    rw [hget i (lt_of_le_of_lt hij hj), hget j hj]
    apply satShape_mono _ _ _ hk
    have hc : (i : ℚ) ≤ (j : ℚ) := by exact_mod_cast hij
    have hd : ((i : ℚ) * 2) / 44100 ≤ ((j : ℚ) * 2) / 44100 := by
      rw [div_le_div_iff₀ (by norm_num : (0 : ℚ) < 44100) (by norm_num : (0 : ℚ) < 44100)]
      linarith
    linarith

/-- C10 witness: at `amount = 1/2` the hypotheses hold and the curve has
exactly 44100 entries. -/
theorem makeSaturationCurve_shape_witness :
    (0 : ℚ) ≤ 1 / 2 ∧ (1 / 2 : ℚ) ≤ 1 ∧ (makeSaturationCurve (1 / 2)).length = 44100 :=
  ⟨by norm_num, by norm_num,
    (makeSaturationCurve_shape (1 / 2) (by norm_num) (by norm_num)).1⟩
